import Mathlib

/-!
Verification of the economic-dashboard backend (`src/main.py`) against its
specification.  The service is embedded shallowly:

* calendar dates are triples year/month/day; `strftime("%Y-%m-%d")` is
  `formatDate`;
* float values are modelled as rationals (`ℚ`); a `NaN` cell of the raw
  upstream series is `Option.none`, so `dropna` is a `filterMap`;
* the TTL cache (`CACHE`, `cache_get`, `cache_set`) is an association list
  from string keys to `{data, timestamp}` entries, time being a natural
  number of seconds; insertion prepends, which has the same lookup
  behaviour as the Python dict assignment;
* the two adapters `fetch_fred_series` and `fetch_yahoo` return
  `Except String _` in place of raising `ValueError`;
* the two route handlers `get_quote` and `get_fred` take the adapter as an
  explicit function argument and additionally return the new cache and the
  number of upstream fetches performed, so that caching behaviour is
  observable.
-/

set_option autoImplicit false

namespace EconDash

/-- A calendar day, as produced by normalising the upstream index. -/
structure Date where
  y : Nat
  m : Nat
  d : Nat
deriving DecidableEq, Repr

/-- Numeric key giving the calendar order of dates (lexicographic y, m, d). -/
def Date.key (dt : Date) : Nat := dt.y * 10000 + dt.m * 100 + dt.d

/-- Zero-pad a number to two digits, as `%m` / `%d` of `strftime` do. -/
def pad2 (n : Nat) : String := if n < 10 then "0" ++ toString n else toString n

/-- Zero-pad a year to four digits, as `%Y` of `strftime` does. -/
def pad4 (n : Nat) : String :=
  if n < 10 then "000" ++ toString n
  else if n < 100 then "00" ++ toString n
  else if n < 1000 then "0" ++ toString n
  else toString n

/-- `d.strftime("%Y-%m-%d")` of `src/main.py`. -/
def formatDate (dt : Date) : String := pad4 dt.y ++ "-" ++ pad2 dt.m ++ "-" ++ pad2 dt.d

/-! ## Cache (`src/main.py` lines 20-33) -/

/-- `CACHE_TTL = timedelta(minutes=30)`, in seconds. -/
def CACHE_TTL : Nat := 30 * 60

/-- One value of the `CACHE` dict: `{"data": ..., "timestamp": ...}`. -/
structure CacheEntry (α : Type) where
  data : α
  timestamp : Nat
deriving DecidableEq, Repr

/-- The `CACHE` dict, as an association list; `cache_set` prepends, so
`List.lookup` sees the most recent binding of a key, as the dict does. -/
abbrev Cache (α : Type) := List (String × CacheEntry α)

variable {α : Type}

/-- `cache_get` of `src/main.py`: the entry's data if the key is present and
the entry is younger than `CACHE_TTL`, otherwise `none`. -/
def cache_get (c : Cache α) (now : Nat) (key : String) : Option α :=
  match List.lookup key c with
  | some entry => if now - entry.timestamp < CACHE_TTL then some entry.data else none
  | none => none

/-- `cache_set` of `src/main.py`: unconditionally (re)bind the key to
`{data, timestamp: now}`. -/
def cache_set (c : Cache α) (now : Nat) (key : String) (data : α) : Cache α :=
  (key, ⟨data, now⟩) :: c

/-! ## FRED adapter (`src/main.py` lines 41-83) -/

/-- Python truthiness of an optional string: `None` and `""` are falsy. -/
def optTruthy (o : Option String) : Bool :=
  match o with
  | none => false
  | some s => !(s == "")

/-- `s.upper().startswith(p)` for an uppercase literal `p`. -/
def upperStartsWith (s p : String) : Bool :=
  p.data.isPrefixOf (s.data.map Char.toUpper)

/-- What `_infer_yoy_lag` can observe of a pandas index: whether it is a
`PeriodIndex`, its `freqstr` attribute, and the result of `pd.infer_freq`. -/
structure IndexMeta where
  isPeriod : Bool
  freqstr : Option String
  inferred : Option String
deriving DecidableEq, Repr

/-- `_infer_yoy_lag` of `src/main.py`: 4 for quarterly, 12 for monthly,
default 12.  The `PeriodIndex` branch checks `freqstr`, falling through to
`pd.infer_freq` when neither prefix matches. -/
def inferYoyLag (idx : IndexMeta) : Nat :=
  if idx.isPeriod && optTruthy idx.freqstr && upperStartsWith (idx.freqstr.getD "") "Q" then 4
  else if idx.isPeriod && optTruthy idx.freqstr && upperStartsWith (idx.freqstr.getD "") "M" then 12
  else if optTruthy idx.inferred && upperStartsWith (idx.inferred.getD "") "Q" then 4
  else 12

/-- One element of the `data` list built at line 79: a history point. -/
structure Pt where
  date : Date
  value : ℚ
deriving DecidableEq, Repr

/-- The successful return value of `fetch_fred_series` (line 83). -/
structure SeriesResult where
  series_id : String
  history : List Pt
  latest : ℚ
deriving DecidableEq, Repr

/-- `df.dropna(subset=["value"])` (line 68): drop rows whose value is NaN. -/
def dropNa (raw : List (Date × Option ℚ)) : List (Date × ℚ) :=
  raw.filterMap (fun p => p.2.map (fun v => (p.1, v)))

/-- `df["value"].pct_change(lag) * 100` followed by the `dropna` at line 73:
row `lag + j` of the input becomes `(curr - prev) / prev * 100` with
`prev` the value `lag` rows earlier, and the first `lag` rows (whose
`pct_change` is NaN) disappear. -/
def yoyTransform (lag : Nat) (pts : List (Date × ℚ)) : List (Date × ℚ) :=
  ((pts.drop lag).zip pts).map (fun q => (q.1.1, (q.1.2 - q.2.2) / q.2.2 * 100))

/-- `df.tail(n)`: the last `n` rows. -/
def tailTrim (n : Nat) (l : List α) : List α := l.drop (l.length - n)

/-- The `data` list of `fetch_fred_series` (lines 68-79): dropna, optional
YoY transform, `tail(max_points)` when `max_points` is truthy, then the
rows as points.  At line 71 the index has already been normalised to
timestamps, so `_infer_yoy_lag` sees a non-period index whose only useful
attribute is the inferred frequency `freq`. -/
def fredData (transform : Option String) (max_points : Nat)
    (raw : List (Date × Option ℚ)) (freq : Option String) : List Pt :=
  let cleaned := dropNa raw
  let transformed :=
    if transform = some "yoy" then
      yoyTransform (inferYoyLag ⟨false, none, freq⟩) cleaned
    else cleaned
  let trimmed := if max_points ≠ 0 then tailTrim max_points transformed else transformed
  trimmed.map (fun p => ⟨p.1, p.2⟩)

/-- `fetch_fred_series` of `src/main.py`: error when the upstream series is
empty, error when no usable observation remains, otherwise the series id,
the history and the last point's value. -/
def fetchFredSeries (series_id : String) (transform : Option String) (max_points : Nat)
    (raw : List (Date × Option ℚ)) (freq : Option String) : Except String SeriesResult :=
  if raw = [] then .error ("No data returned for FRED series " ++ series_id)
  else
    match (fredData transform max_points raw freq).getLast? with
    | none => .error ("No usable observations for " ++ series_id)
    | some last => .ok ⟨series_id, fredData transform max_points raw freq, last.value⟩

/-! ## Yahoo adapter (`src/main.py` lines 87-113) -/

/-- Round a rational to the nearest integer, ties to even, as numpy's
rounding (used by pandas `.round`) does. -/
def roundHalfEven (q : ℚ) : ℤ :=
  let f := ⌊q⌋
  if q - f < 1/2 then f
  else if q - f > 1/2 then f + 1
  else if f % 2 = 0 then f else f + 1

/-- `.round(5)` of pandas: round to 5 decimal digits. -/
def round5 (q : ℚ) : ℚ := (roundHalfEven (q * 100000) : ℚ) / 100000

/-- `history` of a `QuoteResult` (lines 108-111): aligned date and value
sequences. -/
structure QuoteHistory where
  dates : List String
  values : List ℚ
deriving DecidableEq, Repr

/-- The successful return value of `fetch_yahoo` (lines 104-113). -/
structure QuoteResult where
  symbol : String
  latest : ℚ
  ytd_change : ℚ
  history : QuoteHistory
deriving DecidableEq, Repr

/-- `fetch_yahoo` of `src/main.py`: `hist` is the daily close history since
Jan 1 (a row per trading day, in upstream order).  Error when empty;
otherwise `first_price = iloc[0]`, `latest_price = iloc[-1]`,
`pct_ytd = (latest - first) / first * 100`, values rounded to 5 decimals,
dates formatted `%Y-%m-%d`. -/
def fetchYahoo (symbol : String) (hist : List (Date × ℚ)) : Except String QuoteResult :=
  match hist with
  | [] => .error ("No data returned for " ++ symbol)
  | h0 :: t =>
    let first_price := h0.2
    let latest_price := ((h0 :: t).getLast (List.cons_ne_nil h0 t)).2
    let pct_ytd := (latest_price - first_price) / first_price * 100
    .ok { symbol := symbol
          latest := latest_price
          ytd_change := pct_ytd
          history := { dates := (h0 :: t).map (fun p => formatDate p.1)
                       values := (h0 :: t).map (fun p => round5 p.2) } }

/-! ## Routes (`src/main.py` lines 116-142) -/

/-- An HTTP response: either 200 with a payload or 500 with an `{error}`
body. -/
inductive Resp (α : Type) where
  | ok (payload : α)
  | err (msg : String)
deriving DecidableEq, Repr

/-- The HTTP status code of a response. -/
def Resp.status : Resp α → Nat
  | .ok _ => 200
  | .err _ => 500

/-- The cache key of `get_quote`: `f"quote:{symbol}"`. -/
def quoteKey (symbol : String) : String := "quote:" ++ symbol

/-- Python string interpolation of the optional transform: `None` prints as
`"None"`. -/
def transformStr : Option String → String
  | none => "None"
  | some s => s

/-- The cache key of `get_fred`: `f"fred:{series_id}:{transform}"`. -/
def fredKey (series_id : String) (transform : Option String) : String :=
  "fred:" ++ series_id ++ ":" ++ transformStr transform

/-- `get_quote` of `src/main.py`, with the adapter passed in as `fetch` and
the upstream-call count returned alongside the response and the new cache.
(`if cached:` tests dict truthiness; a cached payload is a non-empty dict,
so it is the `some` case here.) -/
def get_quote (fetch : String → Except String QuoteResult) (c : Cache QuoteResult)
    (now : Nat) (symbol : String) : Resp QuoteResult × Cache QuoteResult × Nat :=
  match cache_get c now (quoteKey symbol) with
  | some cached => (.ok cached, c, 0)
  | none =>
    match fetch symbol with
    | .ok data => (.ok data, cache_set c now (quoteKey symbol) data, 1)
    | .error e => (.err e, c, 1)

/-- `get_fred` of `src/main.py`, with the adapter passed in as `fetch` and
the upstream-call count returned alongside the response and the new cache. -/
def get_fred (fetch : String → Option String → Except String SeriesResult)
    (c : Cache SeriesResult) (now : Nat) (series_id : String) (transform : Option String) :
    Resp SeriesResult × Cache SeriesResult × Nat :=
  match cache_get c now (fredKey series_id transform) with
  | some cached => (.ok cached, c, 0)
  | none =>
    match fetch series_id transform with
    | .ok data => (.ok data, cache_set c now (fredKey series_id transform) data, 1)
    | .error e => (.err e, c, 1)


/-! ## Concrete instances used by the witnesses -/

/-- A two-day close history: 2025-01-02 at 10, 2025-01-03 at 12. -/
def exHist : List (Date × ℚ) := [(⟨2025, 1, 2⟩, 10), (⟨2025, 1, 3⟩, 12)]

/-- The `QuoteResult` that `fetchYahoo` produces on `exHist`. -/
def exQuote : QuoteResult :=
  { symbol := "AAPL", latest := 12, ytd_change := 20,
    history := { dates := ["2025-01-02", "2025-01-03"], values := [10, 12] } }

/-- A one-point series payload used as a cached value. -/
def exSeries : SeriesResult :=
  { series_id := "CPIAUCSL", history := [⟨⟨2025, 1, 31⟩, 3⟩], latest := 3 }

/-- A close history whose first price 1/3 is changed by 5-decimal rounding. -/
def c2Hist : List (Date × ℚ) := [(⟨2025, 1, 2⟩, 1/3), (⟨2025, 1, 3⟩, 2)]

/-- A quarterly series of five observations with values 1..5. -/
def c1Raw : List (Date × Option ℚ) :=
  [(⟨2020, 3, 31⟩, some 1), (⟨2020, 6, 30⟩, some 2), (⟨2020, 9, 30⟩, some 3),
   (⟨2020, 12, 31⟩, some 4), (⟨2021, 3, 31⟩, some 5)]

/-- The `SeriesResult` for `c1Raw` under the YoY transform: one point,
(5 - 1) / 1 * 100 = 400. -/
def c1Res : SeriesResult :=
  { series_id := "GDP", history := [⟨⟨2021, 3, 31⟩, 400⟩], latest := 400 }

/-- C3: `cache_get` returns the stored payload iff the key is present and the
current time minus the entry's insertion timestamp is strictly below the
30-minute TTL; an entry at least TTL old is treated as absent and its data is
never returned. -/
theorem cache_get_ttl_iff (α : Type) (c : Cache α) (now : Nat) (key : String) (d : α) :
    cache_get c now key = some d ↔
      ∃ e, List.lookup key c = some e ∧ e.data = d ∧ now - e.timestamp < CACHE_TTL := by
  unfold cache_get
  cases h : List.lookup key c with
  | none => simp
  | some e =>
    by_cases ht : now - e.timestamp < CACHE_TTL
    · simp only [if_pos ht, Option.some.injEq]
      constructor
      · rintro rfl; exact ⟨e, rfl, rfl, ht⟩
      · rintro ⟨e', he', hd, _⟩
        cases he'
        rw [hd]
    · simp only [if_neg ht]
      constructor
      · intro h2; cases h2
      · rintro ⟨e', he', hd, ht'⟩
        cases he'
        exact absurd ht' ht

/-- A string whose uppercasing starts with "M" cannot also start with "Q". -/
theorem mQ (f : String) (h : upperStartsWith f "M" = true) : upperStartsWith f "Q" = false := by
  unfold upperStartsWith at *
  cases hl : f.data.map Char.toUpper with
  | nil => rw [hl] at h; simp [List.isPrefixOf] at h
  | cons c rest =>
    rw [hl] at h
    simp [List.isPrefixOf, show ("M".data = ['M']) from rfl, show ("Q".data = ['Q']) from rfl] at h ⊢
    rw [← h]
    decide

/-- C7: the inferred YoY lag is 4 when the explicit frequency metadata of a
period index starts with "Q", 12 when it starts with "M", and 12 when the
frequency is unknown or unparseable. -/
theorem infer_yoy_lag_spec (idx : IndexMeta) (f : String) :
    (idx.isPeriod = true → idx.freqstr = some f → f ≠ "" → upperStartsWith f "Q" = true →
      inferYoyLag idx = 4)
  ∧ (idx.isPeriod = true → idx.freqstr = some f → f ≠ "" → upperStartsWith f "M" = true →
      inferYoyLag idx = 12)
  ∧ ((idx.isPeriod = false ∨ optTruthy idx.freqstr = false) → optTruthy idx.inferred = false →
      inferYoyLag idx = 12) := by
  refine ⟨?_, ?_, ?_⟩
  · intro hp hf hne hq
    unfold inferYoyLag
    rw [hp, hf]
    simp [optTruthy, hne, hq]
  · intro hp hf hne hm
    unfold inferYoyLag
    rw [hp, hf]
    simp [optTruthy, hne, hm, mQ f hm]
  · intro hp hi
    unfold inferYoyLag
    rcases hp with hp | hp <;> simp [hp, hi]
/-- Witness for C7 at three concrete index descriptions. -/
theorem infer_yoy_lag_spec_witness :
    inferYoyLag ⟨true, some "Q-DEC", none⟩ = 4
  ∧ inferYoyLag ⟨true, some "M", none⟩ = 12
  ∧ inferYoyLag ⟨false, none, none⟩ = 12 :=
  ⟨(infer_yoy_lag_spec ⟨true, some "Q-DEC", none⟩ "Q-DEC").1 rfl rfl (by decide) (by decide),
   (infer_yoy_lag_spec ⟨true, some "M", none⟩ "M").2.1 rfl rfl (by decide) (by decide),
   (infer_yoy_lag_spec ⟨false, none, none⟩ "").2.2 (Or.inl rfl) rfl⟩

/-- C9: on a request whose adapter fetch raises, both handlers return with the
cache unchanged: a failed fetch never inserts or overwrites a cache entry
(`cache_set` runs only after the adapter returns successfully). -/
theorem failed_fetch_leaves_cache (fq : String → Except String QuoteResult)
    (ff : String → Option String → Except String SeriesResult)
    (c : Cache QuoteResult) (cf : Cache SeriesResult) (now : Nat)
    (symbol series_id : String) (transform : Option String) (e e' : String)
    (hq : fq symbol = .error e) (hf : ff series_id transform = .error e') :
    (get_quote fq c now symbol).2.1 = c ∧ (get_fred ff cf now series_id transform).2.1 = cf := by
  constructor
  · unfold get_quote
    cases h : cache_get c now (quoteKey symbol) <;> simp [h, hq]
  · unfold get_fred
    cases h : cache_get cf now (fredKey series_id transform) <;> simp [h, hf]

/-- Witness for C9 at an always-failing adapter and the empty cache. -/
theorem failed_fetch_leaves_cache_witness :
    (get_quote (fun _ => .error "boom") [] 0 "AAPL").2.1 = ([] : Cache QuoteResult) ∧
    (get_fred (fun _ _ => .error "boom") [] 0 "CPIAUCSL" none).2.1 = ([] : Cache SeriesResult) :=
  failed_fetch_leaves_cache (fun _ => .error "boom") (fun _ _ => .error "boom") [] [] 0
    "AAPL" "CPIAUCSL" none "boom" "boom" rfl rfl

/-- C10: for any transform value other than exactly the lowercase string
"yoy" (such as "YOY"), the series adapter applies no transform and no
validation — the result equals the untransformed fetch — and the handler's
cache key contains that transform string, distinct keys for distinct
transform strings of the same series. -/
theorem non_yoy_passthrough (series_id : String) (transform : Option String) (mp : Nat)
    (raw : List (Date × Option ℚ)) (freq : Option String)
    (h : transform ≠ some "yoy") :
    fetchFredSeries series_id transform mp raw freq = fetchFredSeries series_id none mp raw freq
  ∧ fredKey series_id transform = "fred:" ++ series_id ++ ":" ++ transformStr transform
  ∧ ∀ transform', transformStr transform ≠ transformStr transform' →
      fredKey series_id transform ≠ fredKey series_id transform' := by
  have hd : fredData transform mp raw freq = fredData none mp raw freq := by
    simp [fredData, h]
  refine ⟨?_, rfl, ?_⟩
  · unfold fetchFredSeries
    rw [hd]
  · intro t' hne heq
    apply hne
    have hdata := congrArg String.data heq
    simp only [fredKey, String.data_append] at hdata
    exact String.ext (List.append_cancel_left hdata)

/-- Witness for C10 at the uppercase transform "YOY". -/
theorem non_yoy_passthrough_witness :
    (fetchFredSeries "CPIAUCSL" (some "YOY") 240 [] none
        = fetchFredSeries "CPIAUCSL" none 240 [] none)
  ∧ fredKey "CPIAUCSL" (some "YOY") = "fred:" ++ "CPIAUCSL" ++ ":" ++ transformStr (some "YOY")
  ∧ ∀ transform', transformStr (some "YOY") ≠ transformStr transform' →
      fredKey "CPIAUCSL" (some "YOY") ≠ fredKey "CPIAUCSL" transform' :=
  non_yoy_passthrough "CPIAUCSL" (some "YOY") 240 [] none (by decide)

/-- C8: in every successful `QuoteResult` each element of `values` is the
corresponding closing price rounded to 5 decimal digits, and `dates` is the
index-aligned sequence of the same length formatted `YYYY-MM-DD`. -/
theorem yahoo_history_shape (symbol : String) (hist : List (Date × ℚ)) (r : QuoteResult)
    (h : fetchYahoo symbol hist = .ok r) :
    r.history.values = hist.map (fun p => round5 p.2)
  ∧ r.history.dates = hist.map (fun p => formatDate p.1)
  ∧ r.history.dates.length = r.history.values.length := by
  cases hist with
  | nil => exact absurd h (by simp [fetchYahoo])
  | cons h0 t =>
    unfold fetchYahoo at h
    cases h
    exact ⟨rfl, rfl, by simp⟩

/-- Evaluation of `fetchYahoo` on the concrete history `exHist`. -/
theorem fetchYahoo_exHist_eq : fetchYahoo "AAPL" exHist = Except.ok exQuote := by
  simp only [exHist, fetchYahoo, exQuote, List.getLast, List.map, Except.ok.injEq,
    QuoteResult.mk.injEq, QuoteHistory.mk.injEq]
  norm_num [formatDate, pad2, pad4, round5, roundHalfEven]
  exact ⟨by decide, by decide⟩

/-- Witness for C8 on the concrete history `exHist`. -/
theorem yahoo_history_shape_witness :
    exQuote.history.values = exHist.map (fun p => round5 p.2)
  ∧ exQuote.history.dates = exHist.map (fun p => formatDate p.1)
  ∧ exQuote.history.dates.length = exQuote.history.values.length :=
  yahoo_history_shape "AAPL" exHist exQuote fetchYahoo_exHist_eq

/-- C2 is false as stated: on a history with first close 1/3, the code's
`ytd_change` is 500 (computed from the unrounded first price), while the
claimed identity computed from `values[0]` (the price rounded to 5 decimals,
33333/100000) gives a different number. -/
theorem ytd_rounding_counterexample :
    ∃ r, fetchYahoo "AAPL" c2Hist = Except.ok r ∧
      r.ytd_change ≠ (r.latest - r.history.values.headI) / r.history.values.headI * 100 :=
  ⟨{ symbol := "AAPL", latest := 2, ytd_change := 500,
     history := { dates := ["2025-01-02", "2025-01-03"], values := [33333/100000, 2] } },
   by simp only [c2Hist, fetchYahoo, List.getLast, List.map, Except.ok.injEq,
         QuoteResult.mk.injEq, QuoteHistory.mk.injEq]
      norm_num [formatDate, pad2, pad4, round5, roundHalfEven]
      exact ⟨by decide, by decide⟩,
   by simp only [QuoteHistory.mk.injEq, List.headI]
      norm_num⟩

/-- C2 (amended): `ytd_change = (latest - first) / first * 100` where `first`
is the unrounded first closing price of the fetched history; `values[0]` is
that same price rounded to 5 decimals, so the identity stated in terms of
`values[0]` holds only up to that rounding. -/
theorem ytd_change_formula (symbol : String) (hist : List (Date × ℚ)) (r : QuoteResult)
    (h : fetchYahoo symbol hist = .ok r) :
    ∃ first, hist.head? = some first ∧
      r.ytd_change = (r.latest - first.2) / first.2 * 100 ∧
      r.history.values.head? = some (round5 first.2) := by
  cases hist with
  | nil => exact absurd h (by simp [fetchYahoo])
  | cons h0 t =>
    unfold fetchYahoo at h
    cases h
    exact ⟨h0, rfl, rfl, rfl⟩

/-- Witness for the amended C2 on the concrete history `exHist`. -/
theorem ytd_change_formula_witness :
    ∃ first, exHist.head? = some first ∧
      exQuote.ytd_change = (exQuote.latest - first.2) / first.2 * 100 ∧
      exQuote.history.values.head? = some (round5 first.2) :=
  ytd_change_formula "AAPL" exHist exQuote fetchYahoo_exHist_eq
/-- C4: after a cache miss and a successful fetch at `t1`, a second request
for the same key within the TTL window returns the identical payload with no
upstream fetch, and a request at or after TTL expiry performs exactly one
upstream refresh; for both endpoints. -/
theorem cache_idempotence
    (fq : String → Except String QuoteResult) (c : Cache QuoteResult)
    (ff : String → Option String → Except String SeriesResult) (cf : Cache SeriesResult)
    (t1 t2 : Nat) (symbol series_id : String) (transform : Option String)
    (dq : QuoteResult) (df : SeriesResult)
    (hq0 : cache_get c t1 (quoteKey symbol) = none) (hq1 : fq symbol = .ok dq)
    (hf0 : cache_get cf t1 (fredKey series_id transform) = none)
    (hf1 : ff series_id transform = .ok df) :
    get_quote fq c t1 symbol = (.ok dq, cache_set c t1 (quoteKey symbol) dq, 1)
  ∧ (t2 - t1 < CACHE_TTL →
      get_quote fq (cache_set c t1 (quoteKey symbol) dq) t2 symbol
        = (.ok dq, cache_set c t1 (quoteKey symbol) dq, 0))
  ∧ (CACHE_TTL ≤ t2 - t1 →
      (get_quote fq (cache_set c t1 (quoteKey symbol) dq) t2 symbol).2.2 = 1)
  ∧ get_fred ff cf t1 series_id transform
      = (.ok df, cache_set cf t1 (fredKey series_id transform) df, 1)
  ∧ (t2 - t1 < CACHE_TTL →
      get_fred ff (cache_set cf t1 (fredKey series_id transform) df) t2 series_id transform
        = (.ok df, cache_set cf t1 (fredKey series_id transform) df, 0))
  ∧ (CACHE_TTL ≤ t2 - t1 →
      (get_fred ff (cache_set cf t1 (fredKey series_id transform) df) t2 series_id transform).2.2
        = 1) := by
  have hget : ∀ (α : Type) (c0 : Cache α) (d : α) (k : String),
      cache_get (cache_set c0 t1 k d) t2 k
        = if t2 - t1 < CACHE_TTL then some d else none := by
    intro α c0 d k
    unfold cache_get cache_set
    simp [List.lookup]
  refine ⟨?_, ?_, ?_, ?_, ?_, ?_⟩
  · unfold get_quote; simp [hq0, hq1]
  · intro hlt; unfold get_quote; rw [hget]; simp [hlt]
  · intro hge; unfold get_quote; rw [hget]
    simp [Nat.not_lt_of_le hge, hq1]
  · unfold get_fred; simp [hf0, hf1]
  · intro hlt; unfold get_fred; rw [hget]; simp [hlt]
  · intro hge; unfold get_fred; rw [hget]
    simp [Nat.not_lt_of_le hge, hf1]

/-- Witness for C4 at `t1 = 0`, `t2 = 1` and the empty cache. -/
theorem cache_idempotence_witness :
    get_quote (fun _ => .ok exQuote) [] 0 "AAPL"
      = (.ok exQuote, cache_set [] 0 (quoteKey "AAPL") exQuote, 1)
  ∧ (1 - 0 < CACHE_TTL →
      get_quote (fun _ => .ok exQuote) (cache_set [] 0 (quoteKey "AAPL") exQuote) 1 "AAPL"
        = (.ok exQuote, cache_set [] 0 (quoteKey "AAPL") exQuote, 0))
  ∧ (CACHE_TTL ≤ 1 - 0 →
      (get_quote (fun _ => .ok exQuote) (cache_set [] 0 (quoteKey "AAPL") exQuote) 1 "AAPL").2.2
        = 1)
  ∧ get_fred (fun _ _ => .ok exSeries) [] 0 "CPIAUCSL" none
      = (.ok exSeries, cache_set [] 0 (fredKey "CPIAUCSL" none) exSeries, 1)
  ∧ (1 - 0 < CACHE_TTL →
      get_fred (fun _ _ => .ok exSeries) (cache_set [] 0 (fredKey "CPIAUCSL" none) exSeries) 1
          "CPIAUCSL" none
        = (.ok exSeries, cache_set [] 0 (fredKey "CPIAUCSL" none) exSeries, 0))
  ∧ (CACHE_TTL ≤ 1 - 0 →
      (get_fred (fun _ _ => .ok exSeries) (cache_set [] 0 (fredKey "CPIAUCSL" none) exSeries) 1
          "CPIAUCSL" none).2.2 = 1) :=
  cache_idempotence (fun _ => .ok exQuote) [] (fun _ _ => .ok exSeries) [] 0 1
    "AAPL" "CPIAUCSL" none exQuote exSeries rfl rfl rfl rfl
/-- A successful `fetchFredSeries` returns `fredData` as history and the last
point's value as `latest`. -/
theorem fred_ok_history (series_id : String) (transform : Option String) (mp : Nat)
    (raw : List (Date × Option ℚ)) (freq : Option String) (r : SeriesResult)
    (h : fetchFredSeries series_id transform mp raw freq = .ok r) :
    r.history = fredData transform mp raw freq
  ∧ ∃ lp, r.history.getLast? = some lp ∧ r.latest = lp.value := by
  unfold fetchFredSeries at h
  by_cases hr : raw = []
  · rw [if_pos hr] at h; simp at h
  · rw [if_neg hr] at h
    cases hl : (fredData transform mp raw freq).getLast? with
    | none => rw [hl] at h; simp at h
    | some lp =>
      rw [hl] at h
      cases h
      exact ⟨rfl, lp, hl, rfl⟩

/-- C1: with transform "yoy", every point of the returned history has value
`(curr - prev) / prev * 100` where `prev` is the value exactly `lag` sampling
periods earlier in the NaN-cleaned series (`lag` the inferred cadence), and
its date is the current row's date; the first `lag` points are dropped.  NaN
cells of the raw series are `none` and are removed before the transform, and
history values are rationals, so no returned point is NaN. -/
theorem fred_yoy_values (series_id : String) (mp : Nat)
    (raw : List (Date × Option ℚ)) (freq : Option String) (r : SeriesResult)
    (h : fetchFredSeries series_id (some "yoy") mp raw freq = .ok r) :
    ∀ p ∈ r.history, ∃ j,
      ∃ hc : inferYoyLag ⟨false, none, freq⟩ + j < (dropNa raw).length,
        p.date = ((dropNa raw).get ⟨inferYoyLag ⟨false, none, freq⟩ + j, hc⟩).1 ∧
        p.value = (((dropNa raw).get ⟨inferYoyLag ⟨false, none, freq⟩ + j, hc⟩).2
              - ((dropNa raw).get ⟨j, Nat.lt_of_le_of_lt (Nat.le_add_left j _) hc⟩).2)
            / ((dropNa raw).get ⟨j, Nat.lt_of_le_of_lt (Nat.le_add_left j _) hc⟩).2 * 100 := by
  intro p hp
  have hh := (fred_ok_history _ _ _ _ _ _ h).1
  rw [hh] at hp
  simp only [fredData, if_pos rfl] at hp
  rw [List.mem_map] at hp
  obtain ⟨a, ha, hap⟩ := hp
  have ha' : a ∈ yoyTransform (inferYoyLag ⟨false, none, freq⟩) (dropNa raw) := by
    by_cases hmp : mp ≠ 0
    · rw [if_pos hmp] at ha
      exact List.drop_subset _ _ ha
    · rw [if_neg hmp] at ha
      exact ha
  rw [List.mem_iff_getElem] at ha'
  obtain ⟨k, hk, hka⟩ := ha'
  unfold yoyTransform at hka hk
  simp only [List.length_map, List.length_zip, List.length_drop] at hk
  simp only [List.getElem_map, List.getElem_zip, List.getElem_drop] at hka
  refine ⟨k, by omega, ?_, ?_⟩
  · rw [← hap, ← hka]; rfl
  · rw [← hap, ← hka]; rfl
/-- `dropNa` keeps the strict date order of the raw series. -/
theorem pairwise_dropNa (raw : List (Date × Option ℚ))
    (h : List.Pairwise (fun a b => a.1.key < b.1.key) raw) :
    List.Pairwise (fun a b : Date × ℚ => a.1.key < b.1.key) (dropNa raw) := by
  unfold dropNa
  refine List.Pairwise.filterMap _ ?_ h
  rintro ⟨d, v?⟩ ⟨d', v?'⟩ hlt b hb b' hb'
  cases v? with
  | none => simp at hb
  | some v =>
    cases v?' with
    | none => simp at hb'
    | some v' =>
      simp only [Option.map_some', Option.mem_def, Option.some.injEq] at hb hb'
      rw [← hb, ← hb']
      exact hlt

/-- `yoyTransform` keeps the strict date order of its input. -/
theorem pairwise_yoy (lag : Nat) (pts : List (Date × ℚ))
    (h : List.Pairwise (fun a b => a.1.key < b.1.key) pts) :
    List.Pairwise (fun a b : Date × ℚ => a.1.key < b.1.key) (yoyTransform lag pts) := by
  unfold yoyTransform
  rw [List.pairwise_iff_getElem] at h ⊢
  intro i j hi hj hij
  simp only [List.length_map, List.length_zip, List.length_drop] at hi hj
  simp only [List.getElem_map, List.getElem_zip, List.getElem_drop]
  exact h (lag + i) (lag + j) (by omega) (by omega) (by omega)

/-- `fredData` is strictly date-sorted whenever the raw series is. -/
theorem pairwise_fredData (transform : Option String) (mp : Nat)
    (raw : List (Date × Option ℚ)) (freq : Option String)
    (h : List.Pairwise (fun a b => a.1.key < b.1.key) raw) :
    List.Pairwise (fun p q : Pt => p.date.key < q.date.key) (fredData transform mp raw freq) := by
  unfold fredData
  have h1 := pairwise_dropNa raw h
  have h2 : List.Pairwise (fun a b : Date × ℚ => a.1.key < b.1.key)
      (if transform = some "yoy" then
        yoyTransform (inferYoyLag ⟨false, none, freq⟩) (dropNa raw)
      else dropNa raw) := by
    split
    · exact pairwise_yoy _ _ h1
    · exact h1
  have h3 : List.Pairwise (fun a b : Date × ℚ => a.1.key < b.1.key)
      (if mp ≠ 0 then
        tailTrim mp (if transform = some "yoy" then
          yoyTransform (inferYoyLag ⟨false, none, freq⟩) (dropNa raw)
        else dropNa raw)
      else if transform = some "yoy" then
        yoyTransform (inferYoyLag ⟨false, none, freq⟩) (dropNa raw)
      else dropNa raw) := by
    split
    · exact List.Pairwise.sublist (List.drop_sublist _ _) h2
    · exact h2
  exact List.Pairwise.map _ (fun a b hab => hab) h3

/-- C5: every successful `SeriesResult` has history of length at most
`max_points` (positive, 240 by default), sorted strictly ascending by date
whenever the upstream series is date-sorted, and `latest` equal to the value
of the last history point. -/
theorem fred_series_result_invariants (series_id : String) (transform : Option String)
    (mp : Nat) (raw : List (Date × Option ℚ)) (freq : Option String) (r : SeriesResult)
    (h : fetchFredSeries series_id transform mp raw freq = .ok r) :
    (0 < mp → r.history.length ≤ mp)
  ∧ (List.Pairwise (fun a b => a.1.key < b.1.key) raw →
      List.Pairwise (fun p q : Pt => p.date.key < q.date.key) r.history)
  ∧ ∃ lp, r.history.getLast? = some lp ∧ r.latest = lp.value := by
  obtain ⟨hh, hlast⟩ := fred_ok_history _ _ _ _ _ _ h
  refine ⟨?_, ?_, hlast⟩
  · intro hmp
    rw [hh]
    have hne : mp ≠ 0 := by omega
    simp only [fredData, if_pos hne, tailTrim, List.length_map, List.length_drop]
    omega
  · intro hraw
    rw [hh]
    exact pairwise_fredData _ _ _ _ hraw
/-- Evaluation of `fetchFredSeries` with the YoY transform on `c1Raw`. -/
theorem fetchFred_c1_eq :
    fetchFredSeries "GDP" (some "yoy") 240 c1Raw (some "QS") = Except.ok c1Res := by
  have hlag : inferYoyLag ⟨false, none, some "QS"⟩ = 4 := by decide
  simp only [fetchFredSeries, fredData, c1Raw, c1Res, dropNa, yoyTransform, tailTrim, hlag,
    List.filterMap_cons, List.filterMap_nil, Option.map_some', List.drop, List.zip,
    List.zipWith, List.map_cons, List.map_nil, List.length_cons, List.length_nil]
  norm_num
  intro hc
  simp at hc
/-- Witness for C1 at the single point of `c1Res`. -/
theorem fred_yoy_values_witness :
    ∃ j, ∃ hc : inferYoyLag ⟨false, none, some "QS"⟩ + j < (dropNa c1Raw).length,
      (⟨⟨2021, 3, 31⟩, 400⟩ : Pt).date
          = ((dropNa c1Raw).get ⟨inferYoyLag ⟨false, none, some "QS"⟩ + j, hc⟩).1 ∧
      (⟨⟨2021, 3, 31⟩, 400⟩ : Pt).value
          = (((dropNa c1Raw).get ⟨inferYoyLag ⟨false, none, some "QS"⟩ + j, hc⟩).2
              - ((dropNa c1Raw).get ⟨j, Nat.lt_of_le_of_lt (Nat.le_add_left j _) hc⟩).2)
            / ((dropNa c1Raw).get ⟨j, Nat.lt_of_le_of_lt (Nat.le_add_left j _) hc⟩).2 * 100 :=
  fred_yoy_values "GDP" 240 c1Raw (some "QS") c1Res fetchFred_c1_eq
    ⟨⟨2021, 3, 31⟩, 400⟩ (by simp [c1Res])

/-- Witness for C5 on the concrete series `c1Raw`. -/
theorem fred_series_result_invariants_witness :
    (0 < 240 → c1Res.history.length ≤ 240)
  ∧ (List.Pairwise (fun a b => a.1.key < b.1.key) c1Raw →
      List.Pairwise (fun p q : Pt => p.date.key < q.date.key) c1Res.history)
  ∧ ∃ lp, c1Res.history.getLast? = some lp ∧ c1Res.latest = lp.value :=
  fred_series_result_invariants "GDP" (some "yoy") 240 c1Raw (some "QS") c1Res fetchFred_c1_eq
/-- A successful association-list lookup yields a member pair. -/
theorem mem_of_lookup_eq_some {β : Type} {l : List (String × β)} {k : String} {b : β}
    (h : List.lookup k l = some b) : (k, b) ∈ l := by
  obtain ⟨l₁, l₂, rfl, -⟩ := List.lookup_eq_some_iff.mp h
  simp

/-- A cache hit serves the data of an entry stored in the cache. -/
theorem cache_get_some_mem {β : Type} {c : Cache β} {now : Nat} {key : String} {d : β}
    (h : cache_get c now key = some d) : ∃ e, (key, e) ∈ c ∧ e.data = d := by
  unfold cache_get at h
  cases hl : List.lookup key c with
  | none => rw [hl] at h; cases h
  | some e =>
    rw [hl] at h
    dsimp only [] at h
    by_cases ht : now - e.timestamp < CACHE_TTL
    · rw [if_pos ht] at h
      exact ⟨e, mem_of_lookup_eq_some hl, Option.some.inj h⟩
    · rw [if_neg ht] at h; cases h

/-- Appending to a non-empty string keeps it non-empty. -/
theorem append_ne_empty_left (a b : String) (h : a ≠ "") : a ++ b ≠ "" := by
  intro he
  apply h
  have hd := congrArg String.data he
  rw [String.data_append] at hd
  exact String.ext (List.append_eq_nil.mp hd).1

/-- A successful `fetchFredSeries` never returns an empty history. -/
theorem fred_ok_history_ne_nil (series_id : String) (transform : Option String) (mp : Nat)
    (raw : List (Date × Option ℚ)) (freq : Option String) (r : SeriesResult)
    (h : fetchFredSeries series_id transform mp raw freq = .ok r) : r.history ≠ [] := by
  obtain ⟨-, lp, hl, -⟩ := fred_ok_history _ _ _ _ _ _ h
  intro he
  rw [he] at hl
  simp at hl

/-- C6: a request for an unknown or invalid symbol or series id (the upstream
returns no data) gets a 500 response whose error string is non-empty, and no
200 response ever carries an empty history: fresh fetches only succeed with
non-empty histories, and a cache whose entries all have non-empty histories
only serves such payloads. -/
theorem error_responses
    (c : Cache QuoteResult) (cf : Cache SeriesResult) (now mp : Nat)
    (symbol series_id : String) (transform freq : Option String)
    (hq0 : cache_get c now (quoteKey symbol) = none)
    (hf0 : cache_get cf now (fredKey series_id transform) = none) :
    (∃ e, get_quote (fun s => fetchYahoo s []) c now symbol = (.err e, c, 1) ∧ e ≠ ""
        ∧ (Resp.err e : Resp QuoteResult).status = 500)
  ∧ (∃ e, get_fred (fun s t => fetchFredSeries s t mp [] freq) cf now series_id transform
          = (.err e, cf, 1) ∧ e ≠ ""
        ∧ (Resp.err e : Resp SeriesResult).status = 500)
  ∧ (∀ (hist : List (Date × ℚ)) (r : QuoteResult),
      fetchYahoo symbol hist = .ok r → r.history.values ≠ [])
  ∧ (∀ (raw : List (Date × Option ℚ)) (r : SeriesResult),
      fetchFredSeries series_id transform mp raw freq = .ok r → r.history ≠ [])
  ∧ (∀ (fetch : String → Except String QuoteResult) (c' : Cache QuoteResult)
        (q : QuoteResult) (c2 : Cache QuoteResult) (n : Nat),
      (∀ kv ∈ c', kv.2.data.history.values ≠ []) →
      (∀ s r, fetch s = .ok r → r.history.values ≠ []) →
      get_quote fetch c' now symbol = (.ok q, c2, n) → q.history.values ≠ [])
  ∧ (∀ (fetch : String → Option String → Except String SeriesResult) (cf' : Cache SeriesResult)
        (q : SeriesResult) (cf2 : Cache SeriesResult) (n : Nat),
      (∀ kv ∈ cf', kv.2.data.history ≠ []) →
      (∀ s t r, fetch s t = .ok r → r.history ≠ []) →
      get_fred fetch cf' now series_id transform = (.ok q, cf2, n) → q.history ≠ []) := by
  refine ⟨?_, ?_, ?_, ?_, ?_, ?_⟩
  · refine ⟨"No data returned for " ++ symbol, ?_, append_ne_empty_left _ _ (by decide), rfl⟩
    unfold get_quote
    rw [hq0]
    rfl
  · refine ⟨"No data returned for FRED series " ++ series_id, ?_,
      append_ne_empty_left _ _ (by decide), rfl⟩
    unfold get_fred
    rw [hf0]
    rfl
  · intro hist r hr
    cases hist with
    | nil => exact absurd hr (by simp [fetchYahoo])
    | cons h0 t =>
      unfold fetchYahoo at hr
      cases hr
      simp
  · intro raw r hr
    exact fred_ok_history_ne_nil _ _ _ _ _ _ hr
  · intro fetch c' q c2 n hinv hfetch hresp
    unfold get_quote at hresp
    cases hc : cache_get c' now (quoteKey symbol) with
    | some cached =>
      rw [hc] at hresp
      obtain ⟨e, hmem, hed⟩ := cache_get_some_mem hc
      have hq : q = cached := by
        simpa using congrArg (fun x => x.1) hresp |>.symm
      rw [hq, ← hed]
      exact hinv _ hmem
    | none =>
      rw [hc] at hresp
      cases hf : fetch symbol with
      | ok data =>
        rw [hf] at hresp
        have hq : q = data := by
          simpa using congrArg (fun x => x.1) hresp |>.symm
        rw [hq]
        exact hfetch _ _ hf
      | error e =>
        rw [hf] at hresp
        simp at hresp
  · intro fetch cf' q cf2 n hinv hfetch hresp
    unfold get_fred at hresp
    cases hc : cache_get cf' now (fredKey series_id transform) with
    | some cached =>
      rw [hc] at hresp
      obtain ⟨e, hmem, hed⟩ := cache_get_some_mem hc
      have hq : q = cached := by
        simpa using congrArg (fun x => x.1) hresp |>.symm
      rw [hq, ← hed]
      exact hinv _ hmem
    | none =>
      rw [hc] at hresp
      cases hf : fetch series_id transform with
      | ok data =>
        rw [hf] at hresp
        have hq : q = data := by
          simpa using congrArg (fun x => x.1) hresp |>.symm
        rw [hq]
        exact hfetch _ _ _ hf
      | error e =>
        rw [hf] at hresp
        simp at hresp
/-- Witness for C6 at empty caches and empty upstream data. -/
theorem error_responses_witness :
    (∃ e, get_quote (fun s => fetchYahoo s []) [] 0 "MSFT" = (.err e, [], 1) ∧ e ≠ ""
        ∧ (Resp.err e : Resp QuoteResult).status = 500)
  ∧ (∃ e, get_fred (fun s t => fetchFredSeries s t 240 [] none) [] 0 "GDPX" none
          = (.err e, [], 1) ∧ e ≠ ""
        ∧ (Resp.err e : Resp SeriesResult).status = 500)
  ∧ (∀ (hist : List (Date × ℚ)) (r : QuoteResult),
      fetchYahoo "MSFT" hist = .ok r → r.history.values ≠ [])
  ∧ (∀ (raw : List (Date × Option ℚ)) (r : SeriesResult),
      fetchFredSeries "GDPX" none 240 raw none = .ok r → r.history ≠ [])
  ∧ (∀ (fetch : String → Except String QuoteResult) (c' : Cache QuoteResult)
        (q : QuoteResult) (c2 : Cache QuoteResult) (n : Nat),
      (∀ kv ∈ c', kv.2.data.history.values ≠ []) →
      (∀ s r, fetch s = .ok r → r.history.values ≠ []) →
      get_quote fetch c' 0 "MSFT" = (.ok q, c2, n) → q.history.values ≠ [])
  ∧ (∀ (fetch : String → Option String → Except String SeriesResult) (cf' : Cache SeriesResult)
        (q : SeriesResult) (cf2 : Cache SeriesResult) (n : Nat),
      (∀ kv ∈ cf', kv.2.data.history ≠ []) →
      (∀ s t r, fetch s t = .ok r → r.history ≠ []) →
      get_fred fetch cf' 0 "GDPX" none = (.ok q, cf2, n) → q.history ≠ []) :=
  error_responses [] [] 0 240 "MSFT" "GDPX" none none rfl rfl

end EconDash
